import Mathlib

/-!
# Token validation pipeline (`auth/validator.go`)

A shallow embedding of `ParseAndValidateJWT`, `getOIDCTenant`, `validateClaims`,
`verifySignature` and `wrapError`.

Conventions of the embedding.

* Go strings are Lean strings; `strings.TrimSuffix` works on the character list.
* A Go `error` is `Option Error` (`none` is the nil error); a Go pointer result that
  may be nil is an `Option`.  A function returning `(value, error)` returns the pair.
* A function may also panic (failed type assertion, index out of range, nil
  dereference); `Run.panic` records that it did not return.
* The collaborators that live outside `validator.go` (the JWT parser, `net/url`,
  the key material provider `oidcclient.NewOIDCTenant`, `OIDCTenant.GetJWKs`, the
  claims' `Valid` method, the signing method's `Verify`, the configuration getters)
  are fields of `AuthMiddleware`: every theorem quantifies over them.
* Mutable state (clock, tenant cache) and a log of every call made to a collaborator
  are carried in `World`, threaded explicitly through each function.
-/

namespace Auth

/-! ## Data model -/

/-- Go errors seen by the validator.  `UnverfiableTokenError` and
`InvalidSignatureError` are the jwt-go error kinds that embed an error wrapper, whose
stored cause is the `cause` field (nil when the error is built by a composite literal);
`errorf` is a plain error built by `fmt.Errorf`; `foreign` is any error value
produced by a collaborator. -/
inductive Error where
  | UnverfiableTokenError (Message : String) (cause : Option Error)
  | InvalidSignatureError (cause : Option Error)
  | errorf (text : String)
  | foreign (text : String)

/-- Kind test: the error is a `*jwt.UnverfiableTokenError`. -/
def Error.isUnverfiable : Error → Bool
  | .UnverfiableTokenError _ _ => true
  | _ => false

/-- Result of running a Go function: it returns a value or it panics. -/
inductive Run (α : Type) where
  | ret (val : α)
  | panic

/-- A dynamically typed value held in an `interface{}` (decoded JSON). -/
inductive Value where
  | nil
  | string (s : String)
  | number (n : Int)
  | bool (b : Bool)
deriving DecidableEq

/-- The `jwt.SigningMethod` attached to a token by the parser; it is looked up from
the algorithm named in the token header. -/
structure SigningMethod where
  alg : String
deriving DecidableEq

abbrev MapClaims := List (String × Value)

/-- Modelled from the spec: the type declaration of `OIDCClaims` is not part of
`validator.go`; the fields are the ones the validator reads or writes (issuer,
audience, expiration timestamp, attached raw claim map). -/
structure OIDCClaims where
  Issuer : String
  Audience : List String
  ExpiresAt : Option Int
  mapClaims : Option MapClaims

/-- The dynamic type of `token.Claims` (interface `jwt.Claims`). -/
inductive Claims where
  | oidc (c : OIDCClaims)
  | mapClaims (c : MapClaims)

/-- Rendering of `%T` for the dynamic type of a claims value. -/
def Claims.typeName : Claims → String
  | .oidc _ => "*auth.OIDCClaims"
  | .mapClaims _ => "jwt.MapClaims"

/-- The fields of `jwt.Token`. -/
structure Token where
  Raw : String
  Method : SigningMethod
  Header : List (String × Value)
  Claims : Claims
  Signature : String
  Valid : Bool

/-- Modelled from the spec: the type declaration of `oidcclient.JSONWebKey` is not
part of `validator.go`; a JWK has a key id, key material and a declared algorithm. -/
structure JSONWebKey where
  Kid : String
  Alg : String
  Key : String
deriving DecidableEq

structure ProviderJSON where
  Issuer : String
deriving DecidableEq

/-- Modelled from the spec: the type declaration of `oidcclient.OIDCTenant` is not
part of `validator.go`; a tenant carries the provider metadata (authoritative issuer
string) and the key set it was built with. -/
structure OIDCTenant where
  ProviderJSON : ProviderJSON
  jwks : List JSONWebKey
deriving DecidableEq

/-- A parsed `url.URL`. -/
structure URL where
  Scheme : String
  Host : String
  Path : String
deriving DecidableEq

/-- The options handed to `jwt.NewValidationHelper`. -/
structure ValidationHelper where
  audience : String
  issuer : String
  leeway : Int
deriving DecidableEq

/-- Which claims object the parser is asked to fill. -/
inductive ClaimsTarget where
  | oidcClaims
  | mapClaims
deriving DecidableEq

/-- The stages sequenced by `ParseAndValidateJWT`. -/
inductive Stage where
  | decode
  | tenant
  | claims
  | signature
deriving DecidableEq

/-- One entry of the call log: `stage` is written by the orchestrator right before it
starts a stage; every other entry is a call to a collaborator. -/
inductive Event where
  | stage (s : Stage)
  | parseUnverified (raw : String) (target : ClaimsTarget)
  | cacheGet (key : String)
  | sfDo (key : String)
  | newOIDCTenant (issURI : URL)
  | cacheSet (key : String)
  | claimsValid (h : ValidationHelper)
  | getJWKs
  | verify (method : SigningMethod) (signingString signature : String) (key : String)
deriving DecidableEq

/-- A cache item: the stored tenant and the instant at which it expires. -/
structure Item where
  Object : OIDCTenant
  Expiration : Int
deriving DecidableEq

/-- The mutable surroundings of one middleware instance. -/
structure World where
  now : Int
  oidcTenants : List (String × Item)
  trace : List Event

/-- Append one entry to the call log. -/
def World.log (w : World) (e : Event) : World :=
  { w with trace := w.trace ++ [e] }

/-- The middleware instance: configuration and collaborators. -/
structure AuthMiddleware where
  /-- Method `m.parser.ParseUnverified`: the token and its dot-separated parts. -/
  ParseUnverified : String → ClaimsTarget → Except Error (Token × List String)
  /-- Getter `m.options.OAuthConfig.GetClientID()`. -/
  GetClientID : String
  /-- Getter `m.options.OAuthConfig.GetURL()`. -/
  GetURL : String
  /-- Function `url.ParseRequestURI`; `none` when it returns an error. -/
  ParseRequestURI : String → Option URL
  /-- Method `(*url.URL).Hostname`. -/
  Hostname : URL → String
  /-- Function `oidcclient.NewOIDCTenant(m.options.HTTPClient, issURI)`; the first argument is
  the number of provider calls made before this one, so that the provider may answer
  differently from call to call. -/
  NewOIDCTenant : Nat → URL → Except Error OIDCTenant
  /-- Default time to live of the tenant cache. -/
  defaultExpiration : Int
  /-- Method `(*OIDCClaims).Valid(helper)` evaluated at the given instant. -/
  claimsValid : OIDCClaims → ValidationHelper → Int → Option Error
  /-- Method `(*OIDCTenant).GetJWKs()` evaluated at the given instant. -/
  GetJWKs : OIDCTenant → Int → Except Error (List JSONWebKey)
  /-- Method `SigningMethod.Verify(signingString, signature, key)`; `none` when it accepts. -/
  Verify : SigningMethod → String → String → String → Option Error
  /-- The header field that names the key id. -/
  propKeyID : String

/-- One minute in nanoseconds (`time.Minute`). -/
def minute : Int := 60000000000

/-! ## Library operations -/

/-- Translation of `strings.TrimSuffix`. -/
def TrimSuffix (s sfx : String) : String :=
  if sfx.data.isSuffixOf s.data then
    ⟨s.data.take (s.data.length - sfx.data.length)⟩
  else s

/-- Map index `h[k]` on a `map[string]interface{}`: the nil interface when absent. -/
def mapIndex (h : List (String × Value)) (k : String) : Value :=
  (h.lookup k).getD Value.nil

/-- Modelled from the spec: the tenant cache is built outside `validator.go`; it holds
tenants keyed by issuer string, each with an expiration time, and its lookup reports
the item, its expiration and whether a live item was found. -/
def GetWithExpiration (items : List (String × Item)) (now : Int) (k : String) :
    Option OIDCTenant × Int × Bool :=
  match items.lookup k with
  | none => (none, 0, false)
  | some item =>
    if now > item.Expiration then (none, 0, false)
    else (some item.Object, item.Expiration, true)

/-- Modelled from the spec: set-with-default-TTL of the tenant cache; the new item
supersedes any item stored under the same key. -/
def SetDefault (m : AuthMiddleware) (w : World) (k : String) (v : OIDCTenant) : World :=
  { w with
    oidcTenants := (k, ⟨v, w.now + m.defaultExpiration⟩) :: w.oidcTenants.filter (fun e => e.1 ≠ k)
    trace := w.trace ++ [.cacheSet k] }

/-- Number of key material provider calls recorded in a log. -/
def providerCalls (tr : List Event) : Nat :=
  tr.countP (fun e => match e with | .newOIDCTenant _ => true | _ => false)

/-! ## `validator.go` -/

/-- Method `Wrap` of the error wrapper embedded in the jwt-go error kinds.  It is
declared on a value receiver: the cause is assigned to a copy of the wrapper, and the
error the method is called on keeps the cause it had. -/
def Error.Wrap (a _b : Error) : Error := a

/-- Translation of `wrapError`. -/
def wrapError (a b : Option Error) : Option Error :=
  match b with
  | none => a
  | some b1 =>
    match a with
    | none => some b1
    | some a1 => some (a1.Wrap b1)

/-- Translation of `getOIDCTenant`. -/
def getOIDCTenant (m : AuthMiddleware) (t : Token) (w : World) :
    Run (Option OIDCTenant × Option Error) × World :=
  match t.Claims with
  | .mapClaims _ =>
    (.ret (none, some (.UnverfiableTokenError
      ("internal validation error during type assertion: expected *OIDCClaims, got "
        ++ t.Claims.typeName) none)), w)
  | .oidc claims =>
    let iss := claims.Issuer
    match m.ParseRequestURI iss with
    | none => (.ret (none, some (.errorf ("unable to parse issuer URI: " ++ iss))), w)
    | some issURI =>
      match m.ParseRequestURI m.GetURL with
      | none => (.ret (none, some (.errorf ("unable to parse issuer URI: " ++ iss))), w)
      | some bindingIssURI =>
        if m.Hostname bindingIssURI ≠ m.Hostname issURI then
          (.ret (none, some (.UnverfiableTokenError
            "token is issued by unsupported oauth server" none)), w)
        else
          let w1 := w.log (.cacheGet iss)
          match GetWithExpiration w.oidcTenants w.now iss with
          | (keySet, exp, found) =>
            if !found || w.now > exp then
              let w2 := (w1.log (.sfDo iss)).log (.newOIDCTenant issURI)
              match m.NewOIDCTenant (providerCalls w1.trace) issURI with
              | .error err =>
                (.ret (none, wrapError
                  (some (.UnverfiableTokenError "unable to build remote keyset" none))
                  (some err)), w2)
              | .ok newKeySet =>
                (.ret (some newKeySet, none),
                  SetDefault m w2 newKeySet.ProviderJSON.Issuer newKeySet)
            else
              match keySet with
              | some ks => (.ret (some ks, none), w1)
              | none => (.panic, w1)

/-- Translation of `validateClaims`. -/
def validateClaims (m : AuthMiddleware) (t : Token) (ks : Option OIDCTenant) (w : World) :
    Run (Option Error) × World :=
  match t.Claims with
  | .mapClaims _ => (.panic, w)
  | .oidc c =>
    match c.ExpiresAt with
    | none =>
      (.ret (some (.UnverfiableTokenError "expiration time (exp) is unavailable." none)), w)
    | some _ =>
      match ks with
      | none => (.panic, w)
      | some tenant =>
        let validationHelper : ValidationHelper :=
          ⟨m.GetClientID, tenant.ProviderJSON.Issuer, 1 * minute⟩
        (.ret (m.claimsValid c validationHelper w.now), w.log (.claimsValid validationHelper))

/-- Key selection of `verifySignature` (the `var jwk` block): the selected key, or the
error the function returns instead. -/
def selectJWK (m : AuthMiddleware) (t : Token) (jwks : List JSONWebKey) :
    Except Error JSONWebKey :=
  let kid := mapIndex t.Header m.propKeyID
  if kid ≠ Value.nil then
    match jwks.find? (fun key => Value.string key.Kid = kid) with
    | some jwk => .ok jwk
    | none =>
      .error (.UnverfiableTokenError "kid id specified in token not presented by remote" none)
  else
    match jwks with
    | [jwk] => .ok jwk
    | _ =>
      .error (.UnverfiableTokenError
        "no kid specified in token and more than one verification key available" none)

/-- Translation of `verifySignature`. -/
def verifySignature (m : AuthMiddleware) (t : Token) (ks : Option OIDCTenant) (w : World) :
    Run (Option Error) × World :=
  match ks with
  | none => (.panic, w)
  | some tenant =>
    let w1 := w.log .getJWKs
    match m.GetJWKs tenant w.now with
    | .error err =>
      (.ret (wrapError
        (some (.UnverfiableTokenError "failed to fetch token keys from remote" none))
        (some err)), w1)
    | .ok jwks =>
      if jwks.length = 0 then
        (.ret (some (.UnverfiableTokenError "remote returned no jwk to verify the token" none)),
          w1)
      else
        match selectJWK m t jwks with
        | .error e => (.ret (some e), w1)
        | .ok jwk =>
          let signingString := TrimSuffix t.Raw ("." ++ t.Signature)
          let w2 := w1.log (.verify t.Method signingString t.Signature jwk.Key)
          match m.Verify t.Method signingString t.Signature jwk.Key with
          | some err => (.ret (wrapError (some (.InvalidSignatureError none)) (some err)), w2)
          | none => (.ret none, w2)

/-- Translation of `ParseAndValidateJWT`. -/
def ParseAndValidateJWT (m : AuthMiddleware) (rawToken : String) (w : World) :
    Run (Option Token × Option Error) × World :=
  let w1 := (w.log (.stage .decode)).log (.parseUnverified rawToken .oidcClaims)
  match m.ParseUnverified rawToken .oidcClaims with
  | .error err => (.ret (none, some err), w1)
  | .ok (token0, parts) =>
    match parts.get? 2 with
    | none => (.panic, w1)
    | some sig =>
      let token := { token0 with Signature := sig }
      -- get keyset
      match getOIDCTenant m token (w1.log (.stage .tenant)) with
      | (.panic, w2) => (.panic, w2)
      | (.ret (_, some err), w2) => (.ret (none, some err), w2)
      | (.ret (keySet, none), w2) =>
        -- verify claims
        match validateClaims m token keySet (w2.log (.stage .claims)) with
        | (.panic, w3) => (.panic, w3)
        | (.ret (some err), w3) => (.ret (none, some err), w3)
        | (.ret none, w3) =>
          -- verify signature
          match verifySignature m token keySet (w3.log (.stage .signature)) with
          | (.panic, w4) => (.panic, w4)
          | (.ret (some err), w4) => (.ret (none, some err), w4)
          | (.ret none, w4) =>
            let w5 := w4.log (.parseUnverified rawToken .mapClaims)
            match m.ParseUnverified rawToken .mapClaims with
            | .error err => (.ret (none, some err), w5)
            | .ok (mapClaims, _) =>
              match token.Claims, mapClaims.Claims with
              | .oidc c, .mapClaims mc =>
                (.ret (some { token with
                    Claims := .oidc { c with mapClaims := some mc }
                    Valid := true }, none), w5)
              | _, _ => (.panic, w5)

/-! ## Reading the call log -/

/-- The stages started, in order, according to a call log. -/
def stagesOf (tr : List Event) : List Stage :=
  tr.filterMap (fun e => match e with | .stage s => some s | _ => none)

/-- The verification calls recorded in a call log. -/
def verifyCallsOf (tr : List Event) : List (SigningMethod × String × String × String) :=
  tr.filterMap (fun e => match e with
    | .verify method signingString signature key => some (method, signingString, signature, key)
    | _ => none)

/-! ## A concrete middleware used to exercise the theorems -/

def demoKey : JSONWebKey := ⟨"k1", "RS256", "pub-1"⟩

def demoTenant : OIDCTenant := ⟨⟨"https://idp.example.com"⟩, [demoKey]⟩

def demoClaims : OIDCClaims := ⟨"https://idp.example.com", ["svc-1"], some 300, none⟩

def demoToken : Token :=
  { Raw := "h.c.s", Method := ⟨"RS256"⟩, Header := [("kid", .string "k1")],
    Claims := .oidc demoClaims, Signature := "", Valid := false }

/-- A middleware bound to `https://idp.example.com` whose parser knows the single raw
token `h.c.s`, whose provider always answers with `demoTenant`, and whose verification
primitive accepts exactly the signature `s` over `h.c` under key `pub-1`. -/
def demo : AuthMiddleware where
  ParseUnverified := fun raw target =>
    if raw = "h.c.s" then
      match target with
      | .oidcClaims => .ok (demoToken, ["h", "c", "s"])
      | .mapClaims =>
        .ok ({ demoToken with Claims := .mapClaims [("iss", .string "https://idp.example.com")] },
          ["h", "c", "s"])
    else .error (.foreign "token is malformed")
  GetClientID := "svc-1"
  GetURL := "https://idp.example.com"
  ParseRequestURI := fun s =>
    if s = "https://idp.example.com" then some ⟨"https", "idp.example.com", ""⟩
    else if s = "https://evil.example.org" then some ⟨"https", "evil.example.org", ""⟩
    else none
  Hostname := fun u => u.Host
  NewOIDCTenant := fun _ _ => .ok demoTenant
  defaultExpiration := 1000
  claimsValid := fun c h now =>
    match c.ExpiresAt with
    | none => some (.foreign "exp missing")
    | some e =>
      if now > e + h.leeway then some (.foreign "token is expired")
      else if h.audience ∉ c.Audience then some (.foreign "wrong audience")
      else if h.issuer ≠ c.Issuer then some (.foreign "wrong issuer")
      else none
  GetJWKs := fun ks _ => .ok ks.jwks
  Verify := fun _ signingString signature key =>
    if signingString = "h.c" ∧ signature = "s" ∧ key = "pub-1" then none
    else some (.foreign "crypto/rsa: verification error")
  propKeyID := "kid"

def demoWorld : World := ⟨0, [], []⟩

/-- The demo token with an issuer on another host. -/
def evilToken : Token :=
  { demoToken with Claims := .oidc { demoClaims with Issuer := "https://evil.example.org" } }

/-- The demo token without an expiration claim. -/
def noExpToken : Token :=
  { demoToken with Claims := .oidc { demoClaims with ExpiresAt := none } }

/-- The demo token with an issuer claim that is not a URL. -/
def badIssuerToken : Token :=
  { demoToken with Claims := .oidc { demoClaims with Issuer := "not a url" } }

/-- The demo middleware with a parser that decodes `h.c.s` to `noExpToken`. -/
def demoNoExp : AuthMiddleware :=
  { demo with
    ParseUnverified := fun raw _ =>
      if raw = "h.c.s" then .ok (noExpToken, ["h", "c", "s"])
      else .error (.foreign "token is malformed") }

/-- The demo middleware with a parser that decodes `h.c.s` to `badIssuerToken`. -/
def demoBadIssuer : AuthMiddleware :=
  { demo with
    ParseUnverified := fun raw _ =>
      if raw = "h.c.s" then .ok (badIssuerToken, ["h", "c", "s"])
      else .error (.foreign "token is malformed") }

/-- The demo token with a key id that the demo tenant does not publish. -/
def otherKidToken : Token :=
  { demoToken with Header := [("kid", .string "k2")], Signature := "s" }

/-- The demo token without a key id in its header. -/
def noKidToken : Token :=
  { demoToken with Header := [], Signature := "s" }

/-- The demo token as decoded from a header that declares `RS256`. -/
def rs256Token : Token :=
  { demoToken with
    Header := [("alg", .string "RS256"), ("kid", .string "k1")]
    Method := ⟨"RS256"⟩
    Signature := "s" }

/-- The same token as decoded from a header that declares `HS256`. -/
def hs256Token : Token :=
  { demoToken with
    Header := [("alg", .string "HS256"), ("kid", .string "k1")]
    Method := ⟨"HS256"⟩
    Signature := "s" }

/-- The demo token without a key id and with a signature segment that does not verify. -/
def badSigToken : Token :=
  { demoToken with Raw := "h.c.x", Header := [], Signature := "x" }

def secondKey : JSONWebKey := ⟨"k2", "RS256", "pub-2"⟩

/-- A tenant that publishes two keys. -/
def twoKeyTenant : OIDCTenant := ⟨⟨"https://idp.example.com"⟩, [demoKey, secondKey]⟩

/-- The world left by a first resolution of the demo issuer from `demoWorld`. -/
def demoFetched : World :=
  ⟨0, [("https://idp.example.com", ⟨demoTenant, 1000⟩)],
    [.cacheGet "https://idp.example.com", .sfDo "https://idp.example.com",
      .newOIDCTenant ⟨"https", "idp.example.com", ""⟩, .cacheSet "https://idp.example.com"]⟩

/-- A tenant whose provider metadata reports the issuer with a trailing slash. -/
def slashTenant : OIDCTenant := ⟨⟨"https://idp.example.com/"⟩, [demoKey]⟩

/-- The demo middleware with a provider that answers with `slashTenant`. -/
def demoSlash : AuthMiddleware :=
  { demo with NewOIDCTenant := fun _ _ => .ok slashTenant }

/-- The world left by a first resolution of the demo issuer through `demoSlash`. -/
def slashFetched : World :=
  ⟨0, [("https://idp.example.com/", ⟨slashTenant, 1000⟩)],
    [.cacheGet "https://idp.example.com", .sfDo "https://idp.example.com",
      .newOIDCTenant ⟨"https", "idp.example.com", ""⟩, .cacheSet "https://idp.example.com/"]⟩

/-- The token returned by the demo middleware for the raw token `h.c.s`. -/
def demoValidToken : Token :=
  { demoToken with
    Claims := .oidc { demoClaims with
      mapClaims := some [("iss", .string "https://idp.example.com")] }
    Signature := "s"
    Valid := true }

/-- The world left by the demo middleware after validating `h.c.s` from `demoWorld`. -/
def demoFinalWorld : World :=
  ⟨0, [("https://idp.example.com", ⟨demoTenant, 1000⟩)],
    [.stage .decode, .parseUnverified "h.c.s" .oidcClaims, .stage .tenant,
      .cacheGet "https://idp.example.com", .sfDo "https://idp.example.com",
      .newOIDCTenant ⟨"https", "idp.example.com", ""⟩, .cacheSet "https://idp.example.com",
      .stage .claims, .claimsValid ⟨"svc-1", "https://idp.example.com", 60000000000⟩,
      .stage .signature, .getJWKs, .verify ⟨"RS256"⟩ "h.c" "s" "pub-1",
      .parseUnverified "h.c.s" .mapClaims]⟩

/-! ## Lemmas -/

theorem stagesOf_append (a b : List Event) : stagesOf (a ++ b) = stagesOf a ++ stagesOf b := by
  simp [stagesOf, List.filterMap_append]

theorem getOIDCTenant_stages (m : AuthMiddleware) (t : Token) (w : World) :
    stagesOf (getOIDCTenant m t w).2.trace = stagesOf w.trace := by
  unfold getOIDCTenant
  cases t.Claims with
  | mapClaims c => rfl
  | oidc claims =>
    dsimp only
    cases m.ParseRequestURI claims.Issuer with
    | none => rfl
    | some issURI =>
      cases m.ParseRequestURI m.GetURL with
      | none => rfl
      | some bindingIssURI =>
        dsimp only
        split
        · rfl
        · rcases GetWithExpiration w.oidcTenants w.now claims.Issuer with ⟨keySet, exp, found⟩
          dsimp only
          split
          · cases m.NewOIDCTenant (providerCalls (w.log (.cacheGet claims.Issuer)).trace) issURI
              <;> simp [stagesOf_append, World.log, SetDefault, stagesOf]
          · cases keySet <;> simp [stagesOf_append, World.log, stagesOf]

theorem validateClaims_stages (m : AuthMiddleware) (t : Token) (ks : Option OIDCTenant)
    (w : World) : stagesOf (validateClaims m t ks w).2.trace = stagesOf w.trace := by
  unfold validateClaims
  cases t.Claims with
  | mapClaims c => rfl
  | oidc c =>
    dsimp only
    cases c.ExpiresAt with
    | none => rfl
    | some e =>
      cases ks with
      | none => rfl
      | some tenant => simp [stagesOf_append, World.log, stagesOf]

theorem verifySignature_stages (m : AuthMiddleware) (t : Token) (ks : Option OIDCTenant)
    (w : World) : stagesOf (verifySignature m t ks w).2.trace = stagesOf w.trace := by
  unfold verifySignature
  cases ks with
  | none => rfl
  | some tenant =>
    dsimp only
    cases m.GetJWKs tenant w.now with
    | error err => simp [stagesOf_append, World.log, stagesOf]
    | ok jwks =>
      dsimp only
      split
      · simp [stagesOf_append, World.log, stagesOf]
      · cases selectJWK m t jwks with
        | error e => simp [stagesOf_append, World.log, stagesOf]
        | ok jwk =>
          dsimp only
          cases m.Verify t.Method (TrimSuffix t.Raw ("." ++ t.Signature)) t.Signature jwk.Key
            <;> simp [stagesOf_append, World.log, stagesOf]

theorem TrimSuffix_append (a b : String) : TrimSuffix (a ++ b) b = a := by
  unfold TrimSuffix
  have h : b.data.isSuffixOf (a ++ b).data = true := by
    rw [List.isSuffixOf_iff_suffix, String.data_append]
    exact List.suffix_append _ _
  rw [if_pos h]
  simp [String.data_append]

theorem find_kid_none (jwks : List JSONWebKey) (kid : Value)
    (hno : ∀ key ∈ jwks, Value.string key.Kid ≠ kid) :
    jwks.find? (fun key => Value.string key.Kid = kid) = none := by
  rw [List.find?_eq_none]
  intro key hk
  simpa using hno key hk

/-- Inversion of a successful run: a non-nil token comes out of `ParseAndValidateJWT`
only after all four stages returned without error; the error is then nil, the token
is flagged valid, and the four stages were started in order. -/
theorem ParseAndValidateJWT_success_inv (m : AuthMiddleware) (rawToken : String) (w : World)
    (tok : Token) (errOpt : Option Error) (wf : World)
    (h : ParseAndValidateJWT m rawToken w = (.ret (some tok, errOpt), wf)) :
    errOpt = none ∧ tok.Valid = true ∧
      stagesOf wf.trace = stagesOf w.trace ++ [.decode, .tenant, .claims, .signature] ∧
      ∃ token0 parts sig ks w2 w3 w4,
        m.ParseUnverified rawToken .oidcClaims = .ok (token0, parts) ∧
        parts.get? 2 = some sig ∧
        getOIDCTenant m { token0 with Signature := sig }
          (((w.log (.stage .decode)).log (.parseUnverified rawToken .oidcClaims)).log
            (.stage .tenant)) = (.ret (ks, none), w2) ∧
        validateClaims m { token0 with Signature := sig } ks (w2.log (.stage .claims))
          = (.ret none, w3) ∧
        verifySignature m { token0 with Signature := sig } ks (w3.log (.stage .signature))
          = (.ret none, w4) := by
  unfold ParseAndValidateJWT at h
  dsimp only at h
  split at h
  · simp at h
  · split at h
    · simp at h
    · split at h
      · simp at h
      · simp at h
      · split at h
        · simp at h
        · simp at h
        · split at h
          · simp at h
          · simp at h
          · split at h
            · simp at h
            · split at h
              · rename_i _ token0 parts hp _ sig hs _ ks w2 h2 _ w3 h3 _ w4 h4 _ mt _ hm _ _ c mc hc hmc
                simp only [Prod.mk.injEq, Run.ret.injEq, Option.some.injEq] at h
                obtain ⟨⟨htok, herr⟩, hwf⟩ := h
                subst htok hwf
                have s2 := getOIDCTenant_stages m { token0 with Signature := sig }
                  (((w.log (.stage .decode)).log
                    (.parseUnverified rawToken .oidcClaims)).log (.stage .tenant))
                have s3 := validateClaims_stages m { token0 with Signature := sig } ks
                  (w2.log (.stage .claims))
                have s4 := verifySignature_stages m { token0 with Signature := sig } ks
                  (w3.log (.stage .signature))
                rw [h2] at s2
                rw [h3] at s3
                rw [h4] at s4
                simp only [World.log, stagesOf_append] at s2 s3 s4
                refine ⟨herr.symm, rfl, ?_, token0, parts, sig, ks, w2, w3, w4,
                  hp, hs, h2, h3, h4⟩
                simp only [World.log, stagesOf_append]
                rw [s4, s3, s2]; simp [stagesOf]
              · simp at h

/-- What `verifySignature` does once a key has been selected from a non-empty key set:
one `Verify` call with the token's method, the trimmed raw token, the token's signature
and the selected key's material. -/
theorem verifySignature_selected (m : AuthMiddleware) (t : Token) (tenant : OIDCTenant)
    (w : World) (jwks : List JSONWebKey) (jwk : JSONWebKey)
    (hj : m.GetJWKs tenant w.now = .ok jwks) (hne : jwks ≠ [])
    (hsel : selectJWK m t jwks = .ok jwk) :
    verifySignature m t (some tenant) w =
      (.ret (match m.Verify t.Method (TrimSuffix t.Raw ("." ++ t.Signature)) t.Signature jwk.Key with
          | some err => wrapError (some (.InvalidSignatureError none)) (some err)
          | none => none),
        (w.log .getJWKs).log
          (.verify t.Method (TrimSuffix t.Raw ("." ++ t.Signature)) t.Signature jwk.Key)) := by
  have hl : ¬ jwks.length = 0 := by
    intro h; exact hne (List.length_eq_zero.mp h)
  simp only [verifySignature, hj, hsel, if_neg hl]
  cases m.Verify t.Method (TrimSuffix t.Raw ("." ++ t.Signature)) t.Signature jwk.Key <;> rfl

/-- What `verifySignature` does when key selection fails on a non-empty key set: it
returns the selection error and makes no `Verify` call. -/
theorem verifySignature_unselected (m : AuthMiddleware) (t : Token) (tenant : OIDCTenant)
    (w : World) (jwks : List JSONWebKey) (e : Error)
    (hj : m.GetJWKs tenant w.now = .ok jwks) (hne : jwks ≠ [])
    (hsel : selectJWK m t jwks = .error e) :
    verifySignature m t (some tenant) w = (.ret (some e), w.log .getJWKs) := by
  have hl : ¬ jwks.length = 0 := by
    intro h; exact hne (List.length_eq_zero.mp h)
  simp only [verifySignature, hj, hsel, if_neg hl]

theorem verifyCallsOf_append (a b : List Event) :
    verifyCallsOf (a ++ b) = verifyCallsOf a ++ verifyCallsOf b := by
  simp [verifyCallsOf, List.filterMap_append]

theorem getOIDCTenant_verifyCalls (m : AuthMiddleware) (t : Token) (w : World) :
    verifyCallsOf (getOIDCTenant m t w).2.trace = verifyCallsOf w.trace := by
  unfold getOIDCTenant
  cases t.Claims with
  | mapClaims c => rfl
  | oidc claims =>
    dsimp only
    cases m.ParseRequestURI claims.Issuer with
    | none => rfl
    | some issURI =>
      cases m.ParseRequestURI m.GetURL with
      | none => rfl
      | some bindingIssURI =>
        dsimp only
        split
        · rfl
        · rcases GetWithExpiration w.oidcTenants w.now claims.Issuer with ⟨keySet, exp, found⟩
          dsimp only
          split
          · cases m.NewOIDCTenant (providerCalls (w.log (.cacheGet claims.Issuer)).trace) issURI
              <;> simp [verifyCallsOf_append, World.log, SetDefault, verifyCallsOf]
          · cases keySet <;> simp [verifyCallsOf_append, World.log, verifyCallsOf]

theorem validateClaims_verifyCalls (m : AuthMiddleware) (t : Token) (ks : Option OIDCTenant)
    (w : World) : verifyCallsOf (validateClaims m t ks w).2.trace = verifyCallsOf w.trace := by
  unfold validateClaims
  cases t.Claims with
  | mapClaims c => rfl
  | oidc c =>
    dsimp only
    cases c.ExpiresAt with
    | none => rfl
    | some e =>
      cases ks with
      | none => rfl
      | some tenant => simp [verifyCallsOf_append, World.log, verifyCallsOf]

/-- Inversion of a successful signature check: a key was selected from a non-empty
key set and one `Verify` call was made with it. -/
theorem verifySignature_ok_inv (m : AuthMiddleware) (t : Token) (ks : Option OIDCTenant)
    (w w4 : World) (h : verifySignature m t ks w = (.ret none, w4)) :
    ∃ tenant jwks jwk, ks = some tenant ∧ m.GetJWKs tenant w.now = .ok jwks ∧ jwks ≠ [] ∧
      selectJWK m t jwks = .ok jwk := by
  unfold verifySignature at h
  cases ks with
  | none => simp at h
  | some tenant =>
    dsimp only at h
    cases hj : m.GetJWKs tenant w.now with
    | error err => simp [hj, wrapError] at h
    | ok jwks =>
      simp only [hj] at h
      split at h
      · simp at h
      · rename_i hlen
        cases hsel : selectJWK m t jwks with
        | error e => simp [hsel] at h
        | ok jwk =>
          refine ⟨tenant, jwks, jwk, rfl, hj, ?_, hsel⟩
          intro hnil
          exact hlen (by simp [hnil])

/-- Key selection reads only the key ids: relabelling the declared algorithm of every
key selects the relabelled version of the same key. -/
theorem selectJWK_relabel (m : AuthMiddleware) (t : Token) (jwks : List JSONWebKey)
    (f : JSONWebKey → String) :
    selectJWK m t (jwks.map (fun k => { k with Alg := f k })) =
      match selectJWK m t jwks with
      | .ok jwk => .ok { jwk with Alg := f jwk }
      | .error e => .error e := by
  unfold selectJWK
  dsimp only
  split
  · rw [List.find?_map]
    cases hfind : jwks.find? (fun key => decide (Value.string key.Kid = mapIndex t.Header m.propKeyID))
      with
    | none =>
      have : List.find? ((fun key : JSONWebKey =>
          decide (Value.string key.Kid = mapIndex t.Header m.propKeyID)) ∘
          fun k => { k with Alg := f k }) jwks = none := by
        simpa [Function.comp_def] using hfind
      simp [this]
    | some jwk =>
      have : List.find? ((fun key : JSONWebKey =>
          decide (Value.string key.Kid = mapIndex t.Header m.propKeyID)) ∘
          fun k => { k with Alg := f k }) jwks = some jwk := by
        simpa [Function.comp_def] using hfind
      simp [this]
  · match jwks with
    | [] => rfl
    | [k] => rfl
    | a :: b :: l => rfl

/-! ## The claims -/

/-- Claim C1: `ParseAndValidateJWT` runs decode, tenant resolution, claims validation and
signature verification in that order and stops at the first stage that fails: it
returns a nil token with exactly that stage's error, in the world that stage left
behind and with no later stage started.  A non-nil token is returned only when all
four stages succeeded; it comes with a nil error and has `Valid = true`. -/
theorem ParseAndValidateJWT_first_failure_is_terminal
    (m : AuthMiddleware) (rawToken : String) (w : World) :
    (∀ err, m.ParseUnverified rawToken .oidcClaims = .error err →
      ParseAndValidateJWT m rawToken w =
        (.ret (none, some err),
          (w.log (.stage .decode)).log (.parseUnverified rawToken .oidcClaims)) ∧
      stagesOf (ParseAndValidateJWT m rawToken w).2.trace = stagesOf w.trace ++ [.decode]) ∧
    (∀ token0 parts sig, m.ParseUnverified rawToken .oidcClaims = .ok (token0, parts) →
      parts.get? 2 = some sig →
      (∀ ks err w2,
        getOIDCTenant m { token0 with Signature := sig }
          (((w.log (.stage .decode)).log (.parseUnverified rawToken .oidcClaims)).log
            (.stage .tenant)) = (.ret (ks, some err), w2) →
        ParseAndValidateJWT m rawToken w = (.ret (none, some err), w2) ∧
        stagesOf w2.trace = stagesOf w.trace ++ [.decode, .tenant]) ∧
      (∀ ks w2,
        getOIDCTenant m { token0 with Signature := sig }
          (((w.log (.stage .decode)).log (.parseUnverified rawToken .oidcClaims)).log
            (.stage .tenant)) = (.ret (ks, none), w2) →
        (∀ err w3,
          validateClaims m { token0 with Signature := sig } ks (w2.log (.stage .claims))
            = (.ret (some err), w3) →
          ParseAndValidateJWT m rawToken w = (.ret (none, some err), w3) ∧
          stagesOf w3.trace = stagesOf w.trace ++ [.decode, .tenant, .claims]) ∧
        (∀ w3,
          validateClaims m { token0 with Signature := sig } ks (w2.log (.stage .claims))
            = (.ret none, w3) →
          ∀ err w4,
            verifySignature m { token0 with Signature := sig } ks (w3.log (.stage .signature))
              = (.ret (some err), w4) →
            ParseAndValidateJWT m rawToken w = (.ret (none, some err), w4) ∧
            stagesOf w4.trace = stagesOf w.trace ++ [.decode, .tenant, .claims, .signature]))) ∧
    (∀ tok errOpt wf, ParseAndValidateJWT m rawToken w = (.ret (some tok, errOpt), wf) →
      errOpt = none ∧ tok.Valid = true ∧
      stagesOf wf.trace = stagesOf w.trace ++ [.decode, .tenant, .claims, .signature] ∧
      ∃ token0 parts sig ks w2 w3 w4,
        m.ParseUnverified rawToken .oidcClaims = .ok (token0, parts) ∧
        parts.get? 2 = some sig ∧
        getOIDCTenant m { token0 with Signature := sig }
          (((w.log (.stage .decode)).log (.parseUnverified rawToken .oidcClaims)).log
            (.stage .tenant)) = (.ret (ks, none), w2) ∧
        validateClaims m { token0 with Signature := sig } ks (w2.log (.stage .claims))
          = (.ret none, w3) ∧
        verifySignature m { token0 with Signature := sig } ks (w3.log (.stage .signature))
          = (.ret none, w4)) := by
  refine ⟨?_, ?_, ?_⟩
  · intro err h
    have e : ParseAndValidateJWT m rawToken w =
        (.ret (none, some err),
          (w.log (.stage .decode)).log (.parseUnverified rawToken .oidcClaims)) := by
      simp only [ParseAndValidateJWT, h]
    refine ⟨e, ?_⟩
    rw [e]
    simp [World.log, stagesOf_append, stagesOf]
  · intro token0 parts sig hp hs
    refine ⟨?_, ?_⟩
    · intro ks err w2 h2
      refine ⟨by simp only [ParseAndValidateJWT, hp, hs, h2], ?_⟩
      have := getOIDCTenant_stages m { token0 with Signature := sig }
        (((w.log (.stage .decode)).log (.parseUnverified rawToken .oidcClaims)).log
            (.stage .tenant))
      rw [h2] at this
      simpa [World.log, stagesOf_append, stagesOf] using this
    · intro ks w2 h2
      have s2 := getOIDCTenant_stages m { token0 with Signature := sig }
        (((w.log (.stage .decode)).log (.parseUnverified rawToken .oidcClaims)).log
            (.stage .tenant))
      rw [h2] at s2
      refine ⟨?_, ?_⟩
      · intro err w3 h3
        refine ⟨by simp only [ParseAndValidateJWT, hp, hs, h2, h3], ?_⟩
        have s3 := validateClaims_stages m { token0 with Signature := sig } ks
          (w2.log (.stage .claims))
        rw [h3] at s3
        simp only [World.log, stagesOf_append] at s2 s3
        rw [s3, s2]; simp [stagesOf]
      · intro w3 h3 err w4 h4
        refine ⟨by simp only [ParseAndValidateJWT, hp, hs, h2, h3, h4], ?_⟩
        have s3 := validateClaims_stages m { token0 with Signature := sig } ks
          (w2.log (.stage .claims))
        rw [h3] at s3
        have s4 := verifySignature_stages m { token0 with Signature := sig } ks
          (w3.log (.stage .signature))
        rw [h4] at s4
        simp only [World.log, stagesOf_append] at s2 s3 s4
        rw [s4, s3, s2]; simp [stagesOf]
  · intro tok errOpt wf h
    exact ParseAndValidateJWT_success_inv m rawToken w tok errOpt wf h

theorem ParseAndValidateJWT_first_failure_is_terminal_witness :
    (ParseAndValidateJWT demo "bogus" demoWorld =
        (.ret (none, some (.foreign "token is malformed")),
          (demoWorld.log (.stage .decode)).log (.parseUnverified "bogus" .oidcClaims)) ∧
      stagesOf (ParseAndValidateJWT demo "bogus" demoWorld).2.trace =
        stagesOf demoWorld.trace ++ [.decode]) ∧
    ParseAndValidateJWT demo "h.c.s" demoWorld = (.ret (some demoValidToken, none), demoFinalWorld) ∧
    demoValidToken.Valid = true ∧
    stagesOf demoFinalWorld.trace =
      stagesOf demoWorld.trace ++ [.decode, .tenant, .claims, .signature] :=
  ⟨(ParseAndValidateJWT_first_failure_is_terminal demo "bogus" demoWorld).1
      (.foreign "token is malformed") rfl,
    rfl,
    ((ParseAndValidateJWT_first_failure_is_terminal demo "h.c.s" demoWorld).2.2
      demoValidToken none demoFinalWorld rfl).2.1,
    ((ParseAndValidateJWT_first_failure_is_terminal demo "h.c.s" demoWorld).2.2
      demoValidToken none demoFinalWorld rfl).2.2.1⟩

/-- Claim C2: when the issuer claim and the binding URL both parse and their hostnames
differ, `getOIDCTenant` returns the `UnverfiableTokenError` "token is issued by
unsupported oauth server" and hands back the world untouched: the tenant cache is
neither read nor written, the single-flight group is not entered and the key
material provider is not called. -/
theorem getOIDCTenant_untrusted_issuer (m : AuthMiddleware) (t : Token) (w : World)
    (claims : OIDCClaims) (issURI bindingIssURI : URL)
    (hc : t.Claims = .oidc claims)
    (hi : m.ParseRequestURI claims.Issuer = some issURI)
    (hb : m.ParseRequestURI m.GetURL = some bindingIssURI)
    (hne : m.Hostname bindingIssURI ≠ m.Hostname issURI) :
    getOIDCTenant m t w =
        (.ret (none, some (.UnverfiableTokenError
          "token is issued by unsupported oauth server" none)), w) ∧
      (getOIDCTenant m t w).2.oidcTenants = w.oidcTenants ∧
      (getOIDCTenant m t w).2.trace = w.trace ∧
      providerCalls (getOIDCTenant m t w).2.trace = providerCalls w.trace := by
  have e : getOIDCTenant m t w =
      (.ret (none, some (.UnverfiableTokenError
        "token is issued by unsupported oauth server" none)), w) := by
    simp only [getOIDCTenant, hc, hi, hb]
    rw [if_pos hne]
  rw [e]
  exact ⟨rfl, rfl, rfl, rfl⟩

theorem getOIDCTenant_untrusted_issuer_witness :
    getOIDCTenant demo evilToken demoWorld =
        (.ret (none, some (.UnverfiableTokenError
          "token is issued by unsupported oauth server" none)), demoWorld) ∧
      (getOIDCTenant demo evilToken demoWorld).2.oidcTenants = demoWorld.oidcTenants ∧
      (getOIDCTenant demo evilToken demoWorld).2.trace = demoWorld.trace ∧
      providerCalls (getOIDCTenant demo evilToken demoWorld).2.trace =
        providerCalls demoWorld.trace :=
  getOIDCTenant_untrusted_issuer demo evilToken demoWorld
    { demoClaims with Issuer := "https://evil.example.org" }
    ⟨"https", "evil.example.org", ""⟩ ⟨"https", "idp.example.com", ""⟩
    rfl rfl rfl (by decide)

/-- Claim C3: a token whose claims carry no expiration is rejected by `validateClaims` with
the `UnverfiableTokenError` "expiration time (exp) is unavailable.", for every tenant
and every configured audience, without calling the claims' `Valid` method (no
audience, issuer or time comparison: the world is handed back untouched); and
`ParseAndValidateJWT` never returns a token decoded with such claims. -/
theorem validateClaims_missing_exp (m : AuthMiddleware) (c : OIDCClaims)
    (he : c.ExpiresAt = none) :
    (∀ (t : Token) (ks : Option OIDCTenant) (w : World), t.Claims = .oidc c →
      validateClaims m t ks w =
        (.ret (some (.UnverfiableTokenError "expiration time (exp) is unavailable." none)), w)) ∧
    (∀ (rawToken : String) (w : World) (token0 : Token) (parts : List String),
      m.ParseUnverified rawToken .oidcClaims = .ok (token0, parts) →
      token0.Claims = .oidc c →
      ∀ tok errOpt wf, ParseAndValidateJWT m rawToken w ≠ (.ret (some tok, errOpt), wf)) := by
  have key : ∀ (t : Token) (ks : Option OIDCTenant) (w : World), t.Claims = .oidc c →
      validateClaims m t ks w =
        (.ret (some (.UnverfiableTokenError "expiration time (exp) is unavailable." none)), w) := by
    intro t ks w hc
    simp only [validateClaims, hc, he]
  refine ⟨key, ?_⟩
  intro rawToken w token0 parts hp hc tok errOpt wf h
  obtain ⟨_, _, _, token1, parts1, sig, ks, w2, w3, w4, hp1, _, _, h3, _⟩ :=
    ParseAndValidateJWT_success_inv m rawToken w tok errOpt wf h
  rw [hp] at hp1
  simp only [Except.ok.injEq, Prod.mk.injEq] at hp1
  obtain ⟨rfl, rfl⟩ := hp1
  rw [key { token0 with Signature := sig } ks _ hc] at h3
  simp at h3

theorem validateClaims_missing_exp_witness :
    validateClaims demo noExpToken (some demoTenant) demoWorld =
        (.ret (some (.UnverfiableTokenError "expiration time (exp) is unavailable." none)),
          demoWorld) ∧
      (ParseAndValidateJWT demoNoExp "h.c.s" demoWorld).1 =
        .ret (none, some (.UnverfiableTokenError "expiration time (exp) is unavailable." none)) :=
  ⟨(validateClaims_missing_exp demo { demoClaims with ExpiresAt := none } rfl).1
      noExpToken (some demoTenant) demoWorld rfl,
    rfl⟩

/-- Claim C9: an issuer claim that does not parse should make `getOIDCTenant`, and so
`ParseAndValidateJWT`, fail with an `UnverfiableTokenError`, as the other failure
paths of `getOIDCTenant` do.  At the issuer claim `not a url` the function returns the
plain `fmt.Errorf` error "unable to parse issuer URI: not a url" instead, which is not
an `UnverfiableTokenError`, and `ParseAndValidateJWT` hands that error to its caller. -/
theorem getOIDCTenant_bad_issuer_URI_not_unverifiable :
    demo.ParseRequestURI "not a url" = none ∧
      getOIDCTenant demo badIssuerToken demoWorld =
        (.ret (none, some (.errorf "unable to parse issuer URI: not a url")), demoWorld) ∧
      (ParseAndValidateJWT demoBadIssuer "h.c.s" demoWorld).1 =
        .ret (none, some (.errorf "unable to parse issuer URI: not a url")) ∧
      (Error.errorf "unable to parse issuer URI: not a url").isUnverfiable = false ∧
      (getOIDCTenant demo evilToken demoWorld).1 =
        .ret (none, some (.UnverfiableTokenError
          "token is issued by unsupported oauth server" none)) ∧
      (Error.UnverfiableTokenError
        "token is issued by unsupported oauth server" none).isUnverfiable = true :=
  ⟨rfl, rfl, rfl, rfl, rfl, rfl⟩

/-- Claim C4: when the token header carries a key id and no key of the (non-empty) key set
has that key id, `verifySignature` returns the `UnverfiableTokenError` "kid id
specified in token not presented by remote" and makes no `Verify` call with any key;
this holds for key sets of every size, one included. -/
theorem verifySignature_kid_not_found (m : AuthMiddleware) (t : Token) (tenant : OIDCTenant)
    (w : World) (jwks : List JSONWebKey)
    (hj : m.GetJWKs tenant w.now = .ok jwks) (hne : jwks ≠ [])
    (hkid : mapIndex t.Header m.propKeyID ≠ Value.nil)
    (hno : ∀ key ∈ jwks, Value.string key.Kid ≠ mapIndex t.Header m.propKeyID) :
    verifySignature m t (some tenant) w =
        (.ret (some (.UnverfiableTokenError
          "kid id specified in token not presented by remote" none)), w.log .getJWKs) ∧
      verifyCallsOf (verifySignature m t (some tenant) w).2.trace = verifyCallsOf w.trace := by
  have hsel : selectJWK m t jwks = .error (.UnverfiableTokenError
      "kid id specified in token not presented by remote" none) := by
    simp only [selectJWK, if_pos hkid, find_kid_none jwks _ hno]
  have e := verifySignature_unselected m t tenant w jwks _ hj hne hsel
  rw [e]
  exact ⟨rfl, by simp [World.log, verifyCallsOf_append, verifyCallsOf]⟩

theorem verifySignature_kid_not_found_witness :
    verifySignature demo otherKidToken (some demoTenant) demoWorld =
        (.ret (some (.UnverfiableTokenError
          "kid id specified in token not presented by remote" none)),
          demoWorld.log .getJWKs) ∧
      verifyCallsOf (verifySignature demo otherKidToken (some demoTenant) demoWorld).2.trace =
        verifyCallsOf demoWorld.trace :=
  verifySignature_kid_not_found demo otherKidToken demoTenant demoWorld [demoKey]
    rfl (by decide) (by decide) (by decide)

/-- Claim C5: when the token header carries no key id and the key set holds `n ≥ 1` keys,
`verifySignature` calls `Verify` exactly when `n = 1`, then with the sole key, and it
returns nil exactly when `Verify` accepts (otherwise the `InvalidSignatureError` built
at that point, which `wrapError` hands back with no cause attached); when `n ≥ 2` it
returns the `UnverfiableTokenError`
"no kid specified in token and more than one verification key available" and makes
no `Verify` call. -/
theorem verifySignature_no_kid (m : AuthMiddleware) (t : Token) (tenant : OIDCTenant)
    (w : World) (jwks : List JSONWebKey)
    (hj : m.GetJWKs tenant w.now = .ok jwks) (hn : 1 ≤ jwks.length)
    (hkid : mapIndex t.Header m.propKeyID = Value.nil) :
    (∀ k, jwks = [k] →
      (verifySignature m t (some tenant) w).2 =
        (w.log .getJWKs).log
          (.verify t.Method (TrimSuffix t.Raw ("." ++ t.Signature)) t.Signature k.Key) ∧
      ((verifySignature m t (some tenant) w).1 = .ret none ↔
        m.Verify t.Method (TrimSuffix t.Raw ("." ++ t.Signature)) t.Signature k.Key = none) ∧
      (∀ err,
        m.Verify t.Method (TrimSuffix t.Raw ("." ++ t.Signature)) t.Signature k.Key = some err →
        (verifySignature m t (some tenant) w).1 = .ret (some (.InvalidSignatureError none)))) ∧
    (2 ≤ jwks.length →
      verifySignature m t (some tenant) w =
        (.ret (some (.UnverfiableTokenError
          "no kid specified in token and more than one verification key available" none)),
          w.log .getJWKs)) ∧
    (verifyCallsOf (verifySignature m t (some tenant) w).2.trace ≠ verifyCallsOf w.trace ↔
      jwks.length = 1) := by
  have hne : jwks ≠ [] := by
    intro h; rw [h] at hn; simp at hn
  have one : ∀ k, jwks = [k] →
      verifySignature m t (some tenant) w =
        (.ret (match m.Verify t.Method (TrimSuffix t.Raw ("." ++ t.Signature)) t.Signature k.Key with
            | some err => wrapError (some (.InvalidSignatureError none)) (some err)
            | none => none),
          (w.log .getJWKs).log
            (.verify t.Method (TrimSuffix t.Raw ("." ++ t.Signature)) t.Signature k.Key)) := by
    intro k hk
    apply verifySignature_selected m t tenant w jwks k hj hne
    simp [selectJWK, hkid, hk]
  have two : 2 ≤ jwks.length →
      verifySignature m t (some tenant) w =
        (.ret (some (.UnverfiableTokenError
          "no kid specified in token and more than one verification key available" none)),
          w.log .getJWKs) := by
    intro h2
    apply verifySignature_unselected m t tenant w jwks _ hj hne
    match jwks, h2 with
    | a :: b :: l, _ => simp [selectJWK, hkid]
  refine ⟨?_, two, ?_⟩
  · intro k hk
    rw [one k hk]
    refine ⟨rfl, ?_, ?_⟩
    · cases m.Verify t.Method (TrimSuffix t.Raw ("." ++ t.Signature)) t.Signature k.Key
        <;> simp [wrapError]
    · intro err he
      simp [he, wrapError, Error.Wrap]
  · constructor
    · intro hcalls
      by_contra hlen
      have h2 : 2 ≤ jwks.length := by omega
      rw [two h2] at hcalls
      simp [World.log, verifyCallsOf_append, verifyCallsOf] at hcalls
    · intro hlen
      obtain ⟨k, hk⟩ := List.length_eq_one.mp hlen
      rw [one k hk]
      simp [World.log, verifyCallsOf_append, verifyCallsOf]

theorem verifySignature_no_kid_witness :
    (verifySignature demo noKidToken (some demoTenant) demoWorld).2 =
        (demoWorld.log .getJWKs).log (.verify ⟨"RS256"⟩ "h.c" "s" "pub-1") ∧
      (verifySignature demo noKidToken (some demoTenant) demoWorld).1 = .ret none ∧
      (verifySignature demo badSigToken (some demoTenant) demoWorld).1 =
        .ret (some (.InvalidSignatureError none)) ∧
      verifySignature demo noKidToken (some twoKeyTenant) demoWorld =
        (.ret (some (.UnverfiableTokenError
          "no kid specified in token and more than one verification key available" none)),
          demoWorld.log .getJWKs) :=
  ⟨((verifySignature_no_kid demo noKidToken demoTenant demoWorld [demoKey]
      rfl (by decide) (by decide)).1 demoKey rfl).1,
    ((verifySignature_no_kid demo noKidToken demoTenant demoWorld [demoKey]
      rfl (by decide) (by decide)).1 demoKey rfl).2.1.mpr rfl,
    ((verifySignature_no_kid demo badSigToken demoTenant demoWorld [demoKey]
      rfl (by decide) (by decide)).1 demoKey rfl).2.2
      (.foreign "crypto/rsa: verification error") rfl,
    (verifySignature_no_kid demo noKidToken twoKeyTenant demoWorld [demoKey, secondKey]
      rfl (by decide) (by decide)).2.1 (by decide)⟩

/-- Claim C6: for all strings `h`, `c`, `s`, when the token's raw string is
`h ++ "." ++ c ++ "." ++ s` and its signature segment is `s`, the one `Verify` call
that `verifySignature` makes after selecting a key receives the signing input
`h ++ "." ++ c` and the signature `s`.  `ParseAndValidateJWT` attaches the third part
reported by the parser as the signature segment: whenever it returns a token for a raw
token decoded as `h.c.s`, the run made exactly one `Verify` call, on `h ++ "." ++ c`
and `s`. -/
theorem verifySignature_signing_input (m : AuthMiddleware) (h c s : String) :
    (∀ (t : Token) (tenant : OIDCTenant) (w : World) (jwks : List JSONWebKey)
        (jwk : JSONWebKey),
      m.GetJWKs tenant w.now = .ok jwks → jwks ≠ [] → selectJWK m t jwks = .ok jwk →
      t.Raw = h ++ "." ++ c ++ "." ++ s → t.Signature = s →
      (verifySignature m t (some tenant) w).2.trace =
          w.trace ++ [.getJWKs, .verify t.Method (h ++ "." ++ c) s jwk.Key] ∧
        verifyCallsOf (verifySignature m t (some tenant) w).2.trace =
          verifyCallsOf w.trace ++ [(t.Method, h ++ "." ++ c, s, jwk.Key)]) ∧
    (∀ (rawToken : String) (w : World) (token0 tok : Token) (errOpt : Option Error)
        (wf : World),
      m.ParseUnverified rawToken .oidcClaims = .ok (token0, [h, c, s]) →
      token0.Raw = h ++ "." ++ c ++ "." ++ s →
      ParseAndValidateJWT m rawToken w = (.ret (some tok, errOpt), wf) →
      ∃ key, verifyCallsOf wf.trace =
        verifyCallsOf w.trace ++ [(token0.Method, h ++ "." ++ c, s, key)]) := by
  have first : ∀ (t : Token) (tenant : OIDCTenant) (w : World) (jwks : List JSONWebKey)
      (jwk : JSONWebKey),
      m.GetJWKs tenant w.now = .ok jwks → jwks ≠ [] → selectJWK m t jwks = .ok jwk →
      t.Raw = h ++ "." ++ c ++ "." ++ s → t.Signature = s →
      (verifySignature m t (some tenant) w).2.trace =
          w.trace ++ [.getJWKs, .verify t.Method (h ++ "." ++ c) s jwk.Key] ∧
        verifyCallsOf (verifySignature m t (some tenant) w).2.trace =
          verifyCallsOf w.trace ++ [(t.Method, h ++ "." ++ c, s, jwk.Key)] := by
    intro t tenant w jwks jwk hj hne hsel hraw hsig
    have ht : TrimSuffix t.Raw ("." ++ t.Signature) = h ++ "." ++ c := by
      rw [hraw, hsig, String.append_assoc (h ++ "." ++ c) "." s]
      exact TrimSuffix_append _ _
    rw [verifySignature_selected m t tenant w jwks jwk hj hne hsel, ht, hsig]
    constructor
    · simp [World.log]
    · simp [World.log, verifyCallsOf_append, verifyCallsOf]
  refine ⟨first, ?_⟩
  intro rawToken w token0 tok errOpt wf hp hraw hrun
  obtain ⟨_, _, _, token1, parts1, sig, ks, w2, w3, w4, hp1, hs, h2, h3, h4⟩ :=
    ParseAndValidateJWT_success_inv m rawToken w tok errOpt wf hrun
  rw [hp] at hp1
  simp only [Except.ok.injEq, Prod.mk.injEq] at hp1
  obtain ⟨rfl, rfl⟩ := hp1
  simp only [List.get?_cons_succ, List.get?_cons_zero, Option.some.injEq] at hs
  subst hs
  obtain ⟨tenant, jwks, jwk, rfl, hj, hne, hsel⟩ :=
    verifySignature_ok_inv m _ ks _ w4 h4
  have hcalls := (first { token0 with Signature := s } tenant (w3.log (.stage .signature))
    jwks jwk hj hne hsel hraw rfl).2
  rw [h4] at hcalls
  have c2 := getOIDCTenant_verifyCalls m { token0 with Signature := s }
    (((w.log (.stage .decode)).log (.parseUnverified rawToken .oidcClaims)).log
      (.stage .tenant))
  rw [h2] at c2
  have c3 := validateClaims_verifyCalls m { token0 with Signature := s } (some tenant)
    (w2.log (.stage .claims))
  rw [h3] at c3
  simp only [World.log, verifyCallsOf_append] at c2 c3 hcalls
  have hwf : wf = w4.log (.parseUnverified rawToken .mapClaims) := by
    unfold ParseAndValidateJWT at hrun
    simp only [hp, List.get?_cons_succ, List.get?_cons_zero, h2, h3, h4] at hrun
    split at hrun
    · simp at hrun
    · split at hrun
      · simp only [Prod.mk.injEq] at hrun
        exact hrun.2.symm
      · simp at hrun
  refine ⟨jwk.Key, ?_⟩
  rw [hwf]
  simp only [World.log, verifyCallsOf_append]
  rw [hcalls, c3, c2]
  simp [verifyCallsOf]

theorem verifySignature_signing_input_witness :
    (verifySignature demo { demoToken with Signature := "s" } (some demoTenant) demoWorld).2.trace =
        demoWorld.trace ++ [.getJWKs, .verify ⟨"RS256"⟩ ("h" ++ "." ++ "c") "s" "pub-1"] ∧
      verifyCallsOf
          (verifySignature demo { demoToken with Signature := "s" } (some demoTenant)
            demoWorld).2.trace =
        verifyCallsOf demoWorld.trace ++ [(⟨"RS256"⟩, "h" ++ "." ++ "c", "s", "pub-1")] :=
  (verifySignature_signing_input demo "h" "c" "s").1 { demoToken with Signature := "s" }
    demoTenant demoWorld [demoKey] demoKey rfl (by decide) rfl (by decide) rfl

/-- Claim C7 (as the code behaves): after key selection `verifySignature` makes its `Verify`
call on the signing method attached to the token (`t.Method`, which the decoder takes
from the token header) with the selected key's material; the algorithm declared for
the key is not consulted: relabelling the declared algorithm of every key of the key
set changes neither the result nor the calls made. -/
theorem verifySignature_uses_token_method (m : AuthMiddleware) (t : Token)
    (tenant : OIDCTenant) (w : World) (jwks : List JSONWebKey) (f : JSONWebKey → String)
    (hj : m.GetJWKs tenant w.now = .ok jwks) (hne : jwks ≠ []) :
    (∀ jwk, selectJWK m t jwks = .ok jwk →
      verifyCallsOf (verifySignature m t (some tenant) w).2.trace =
        verifyCallsOf w.trace ++
          [(t.Method, TrimSuffix t.Raw ("." ++ t.Signature), t.Signature, jwk.Key)]) ∧
    verifySignature
        { m with GetJWKs := fun _ _ => .ok (jwks.map (fun k => { k with Alg := f k })) }
        t (some tenant) w =
      verifySignature m t (some tenant) w := by
  constructor
  · intro jwk hsel
    rw [verifySignature_selected m t tenant w jwks jwk hj hne hsel]
    simp [World.log, verifyCallsOf_append, verifyCallsOf]
  · have hne2 : jwks.map (fun k => { k with Alg := f k }) ≠ [] := by
      simpa using hne
    have hrel := selectJWK_relabel m t jwks f
    cases hsel : selectJWK m t jwks with
    | error e =>
      rw [hsel] at hrel
      rw [verifySignature_unselected m t tenant w jwks e hj hne hsel]
      exact verifySignature_unselected _ t tenant w _ e rfl hne2 hrel
    | ok jwk =>
      rw [hsel] at hrel
      rw [verifySignature_selected m t tenant w jwks jwk hj hne hsel]
      exact verifySignature_selected _ t tenant w _ { jwk with Alg := f jwk } rfl hne2 hrel

theorem verifySignature_uses_token_method_witness :
    verifyCallsOf (verifySignature demo hs256Token (some demoTenant) demoWorld).2.trace =
        verifyCallsOf demoWorld.trace ++
          [(⟨"HS256"⟩, TrimSuffix "h.c.s" ("." ++ "s"), "s", "pub-1")] ∧
      verifySignature
          { demo with GetJWKs := fun _ _ => .ok ([demoKey].map (fun k => { k with Alg := "ES256" })) }
          hs256Token (some demoTenant) demoWorld =
        verifySignature demo hs256Token (some demoTenant) demoWorld :=
  ⟨(verifySignature_uses_token_method demo hs256Token demoTenant demoWorld
      [demoKey] (fun _ => "ES256") rfl (by decide)).1 demoKey rfl,
    (verifySignature_uses_token_method demo hs256Token demoTenant demoWorld
      [demoKey] (fun _ => "ES256") rfl (by decide)).2⟩

/-- Claim C7 (as stated) fails: two tokens that differ only in their declared
algorithm, hence in the signing method attached by the decoder, are verified with
different methods against the same key, whose declared algorithm is `RS256`; the
method applied follows the token, not the key. -/
theorem verifySignature_method_follows_token :
    demoKey.Alg = "RS256" ∧
      verifyCallsOf (verifySignature demo rs256Token (some demoTenant) demoWorld).2.trace =
        [(⟨"RS256"⟩, "h.c", "s", "pub-1")] ∧
      verifyCallsOf (verifySignature demo hs256Token (some demoTenant) demoWorld).2.trace =
        [(⟨"HS256"⟩, "h.c", "s", "pub-1")] := by
  decide

/-- Claim C8 (as the code behaves): when a first `getOIDCTenant` call fetches a tenant from
the key material provider and the issuer string reported by the provider equals the
token's issuer claim, a second call for the same token made no later than the default
time to live after the first returns that tenant from the cache and makes no provider
call. -/
theorem getOIDCTenant_second_call_cached (m : AuthMiddleware) (t : Token) (w w1 : World)
    (claims : OIDCClaims) (tenant : OIDCTenant) (t2 : Int)
    (hc : t.Claims = .oidc claims)
    (h1 : getOIDCTenant m t w = (.ret (some tenant, none), w1))
    (hfetch : providerCalls w1.trace = providerCalls w.trace + 1)
    (hiss : tenant.ProviderJSON.Issuer = claims.Issuer)
    (httl : t2 ≤ w.now + m.defaultExpiration) :
    getOIDCTenant m t { w1 with now := t2 } =
        (.ret (some tenant, none), { w1 with now := t2 }.log (.cacheGet claims.Issuer)) ∧
      providerCalls (getOIDCTenant m t { w1 with now := t2 }).2.trace =
        providerCalls w1.trace := by
  have hcache : w1.oidcTenants.lookup claims.Issuer =
      some ⟨tenant, w.now + m.defaultExpiration⟩ := by
    unfold getOIDCTenant at h1
    simp only [hc] at h1
    cases hi : m.ParseRequestURI claims.Issuer with
    | none => simp [hi] at h1
    | some issURI =>
      cases hb : m.ParseRequestURI m.GetURL with
      | none => simp [hi, hb] at h1
      | some bindingIssURI =>
        simp only [hi, hb] at h1
        split at h1
        · simp at h1
        · rcases hg : GetWithExpiration w.oidcTenants w.now claims.Issuer with ⟨keySet, exp, found⟩
          simp only [hg] at h1
          split at h1
          · cases hp : m.NewOIDCTenant (providerCalls (w.log (.cacheGet claims.Issuer)).trace)
              issURI with
            | error err => simp [hp, wrapError] at h1
            | ok newKeySet =>
              simp only [hp, Prod.mk.injEq, Run.ret.injEq, Option.some.injEq, and_true] at h1
              obtain ⟨rfl, rfl⟩ := h1
              simp [SetDefault, World.log, hiss, List.lookup]
          · exfalso
            cases keySet with
            | none => simp at h1
            | some ks =>
              simp only [Prod.mk.injEq, Run.ret.injEq, Option.some.injEq, and_true] at h1
              obtain ⟨_, rfl⟩ := h1
              simp [World.log, providerCalls] at hfetch
  have hshape : ∃ issURI bindingIssURI, m.ParseRequestURI claims.Issuer = some issURI ∧
      m.ParseRequestURI m.GetURL = some bindingIssURI ∧
      ¬ m.Hostname bindingIssURI ≠ m.Hostname issURI := by
    unfold getOIDCTenant at h1
    simp only [hc] at h1
    cases hi : m.ParseRequestURI claims.Issuer with
    | none => simp [hi] at h1
    | some issURI =>
      cases hb : m.ParseRequestURI m.GetURL with
      | none => simp [hi, hb] at h1
      | some bindingIssURI =>
        simp only [hi, hb] at h1
        refine ⟨issURI, bindingIssURI, rfl, rfl, ?_⟩
        intro hne
        rw [if_pos hne] at h1
        simp at h1
  obtain ⟨issURI, bindingIssURI, hi, hb, hhost⟩ := hshape
  have hget : GetWithExpiration w1.oidcTenants t2 claims.Issuer =
      (some tenant, w.now + m.defaultExpiration, true) := by
    have : ¬ t2 > w.now + m.defaultExpiration := by omega
    simp only [GetWithExpiration, hcache, if_neg this]
  have e : getOIDCTenant m t { w1 with now := t2 } =
      (.ret (some tenant, none), { w1 with now := t2 }.log (.cacheGet claims.Issuer)) := by
    have hlt : ¬ w.now + m.defaultExpiration < t2 := by omega
    simp only [getOIDCTenant, hc, hi, hb, if_neg hhost, hget]
    simp [hlt]
  rw [e]
  refine ⟨rfl, ?_⟩
  simp [World.log, providerCalls]

theorem getOIDCTenant_second_call_cached_witness :
    getOIDCTenant demo demoToken { demoFetched with now := 1000 } =
        (.ret (some demoTenant, none),
          { demoFetched with now := 1000 }.log (.cacheGet "https://idp.example.com")) ∧
      providerCalls (getOIDCTenant demo demoToken { demoFetched with now := 1000 }).2.trace =
        providerCalls demoFetched.trace :=
  getOIDCTenant_second_call_cached demo demoToken demoWorld demoFetched demoClaims demoTenant
    1000 rfl rfl (by decide) rfl (by decide)

/-- Claim C8 (as stated) fails: the provider reports the issuer with a trailing slash, the
first call succeeds and stores the tenant under that string, and the second call, made
within the time to live with the same issuer claim, misses the cache and calls the
provider again. -/
theorem getOIDCTenant_second_call_refetches :
    getOIDCTenant demoSlash demoToken demoWorld = (.ret (some slashTenant, none), slashFetched) ∧
      providerCalls slashFetched.trace = 1 ∧
      (1 : Int) ≤ demoWorld.now + demoSlash.defaultExpiration ∧
      (getOIDCTenant demoSlash demoToken { slashFetched with now := 1 }).1 =
        .ret (some slashTenant, none) ∧
      providerCalls (getOIDCTenant demoSlash demoToken { slashFetched with now := 1 }).2.trace
        = 2 :=
  ⟨rfl, by decide, by decide, rfl, by decide⟩

end Auth
